import Mathlib

/-!
Shallow embedding of the evnsq `Client` connection-pool manager
(`src/apps/evnsq/client.cc`) and proofs about its operations.

Modelling conventions:
* A `Conn` stands for one `NSQConn` object (`ConnPtr`); `cid` is the object
  identity, so `Conn` equality is C++ `shared_ptr` equality.  `remote_addr()`
  is the `addr` field.
* `connecting_conns_` (a `std::map<std::string, ConnPtr>`) is an association
  list keyed by address; a `none` value is a null `ConnPtr` (the value
  default-inserted by `operator[]`).  Key iteration order of `std::map` is
  not relied on by any statement proved here.
* `conns_` (a `std::vector<ConnPtr>`) is a `List Conn`; `push_back` is
  append, the erase-first-match loops are `List.erase`.
* Side effects on collaborators (starting a TCP connect, sending SUB,
  invoking the user callbacks, cancelling a timer) are emitted as `Effect`
  values; `close_fn_set` / `ready_fn_set` model whether the corresponding
  `std::function` callback is non-empty.
* `loop_->QueueInLoop(f)` appends a `PoolTask` to `queued_`; the queued
  teardown closure of `Close` is `runTeardown`, executed on a later tick.
* The lookupd HTTP response handler takes the HTTP status code and the
  rapidjson-parsed body as an abstract JSON value `JVal` (a body that fails
  to parse is left as `JVal.jnull`, rapidjson's error/null document).
  rapidjson's `operator[]` / `GetInt` / `GetString` assert (abort) when the
  member is missing or of the wrong kind; those unchecked accesses are
  surfaced as `Except.error`.
-/

namespace Evnsq

/-- `NSQConn` status values (conn.h): Disconnected, Connecting, Connected, Ready. -/
inductive Status where
  | kDisconnected
  | kConnecting
  | kConnected
  | kReady
deriving DecidableEq, Repr

/-- Client type (client.h): producer or consumer. -/
inductive ClientType where
  | kProducer
  | kConsumer
deriving DecidableEq, Repr

/-- One `NSQConn` object: `cid` is the object identity (pointer), `addr` its
`remote_addr()`. -/
structure Conn where
  cid : Nat
  addr : String
deriving DecidableEq, Repr

/-- A closure queued on the event loop via `QueueInLoop`. -/
inductive PoolTask where
  | teardown
  | diagnostic (c : Conn)
deriving DecidableEq, Repr

/-- Observable side effects on external collaborators. -/
inductive Effect where
  | connectStart (c : Conn) (addr : String)
  | subscribe (c : Conn) (topic channel : String)
  | setStatus (c : Conn) (st : Status)
  | readyToPublish (c : Conn)
  | closeComplete
  | closeConn (c : Conn)
  | closeNullConn (addr : String)
  | cancelTimer (t : Nat)
  | queryLookupd (url : String)
deriving DecidableEq, Repr

/-- Association-list model of `std::map<std::string, ConnPtr>`: lookup. -/
def mapFind (m : List (String × Option Conn)) (k : String) : Option (Option Conn) :=
  match m with
  | [] => none
  | p :: rest => if p.1 = k then some p.2 else mapFind rest k

/-- Association-list model of `std::map` insert-or-assign (`m[k] = v`). -/
def mapInsert (m : List (String × Option Conn)) (k : String) (v : Option Conn) :
    List (String × Option Conn) :=
  match m with
  | [] => [(k, v)]
  | p :: rest => if p.1 = k then (k, v) :: rest else p :: mapInsert rest k v

/-- Association-list model of `std::map::erase(k)`: removes the (unique)
entry with key `k`, if present. -/
def mapErase (m : List (String × Option Conn)) (k : String) :
    List (String × Option Conn) :=
  match m with
  | [] => []
  | p :: rest => if p.1 = k then rest else p :: mapErase rest k

/-- The pool-relevant state of an evnsq `Client` (client.h data members). -/
structure PoolState where
  type_ : ClientType
  topic_ : String
  channel_ : String
  closing_ : Bool
  conns_ : List Conn
  connecting_conns_ : List (String × Option Conn)
  lookupd_timers_ : List Nat
  queued_ : List PoolTask
  close_fn_set : Bool
  ready_fn_set : Bool
  nextConnId : Nat
  nextTimerId : Nat
deriving DecidableEq, Repr

/-- `Client::IsKnownNSQDAddress`: the address is a key of `connecting_conns_`
(even if mapped to a null `ConnPtr`) or is the `remote_addr()` of some
element of `conns_`. -/
def IsKnownNSQDAddress (s : PoolState) (addr : String) : Bool :=
  (mapFind s.connecting_conns_ addr).isSome || s.conns_.any (fun c => c.addr == addr)

/-- `Client::ConnectToNSQD`: unconditionally creates a fresh `NSQConn`,
stores it under `connecting_conns_[addr]`, registers the callbacks (not
modelled as effects) and starts the TCP connect. -/
def ConnectToNSQD (s : PoolState) (addr : String) : PoolState × List Effect :=
  let c : Conn := ⟨s.nextConnId, addr⟩
  ({ s with connecting_conns_ := mapInsert s.connecting_conns_ addr (some c),
            nextConnId := s.nextConnId + 1 },
   [Effect.connectStart c addr])

/-- `Client::ConnectToNSQDs` (vector overload): `ConnectToNSQD` on each
address in order, accumulating effects. -/
def ConnectToNSQDs (s : PoolState) (addrs : List String) : PoolState × List Effect :=
  match addrs with
  | [] => (s, [])
  | a :: rest =>
    let r := ConnectToNSQD s a
    let r2 := ConnectToNSQDs r.1 rest
    (r2.1, r.2 ++ r2.2)

/-- `Client::ConnectToLookupd`: runs one immediate lookupd query on the loop
and registers a periodic timer whose handle is retained in
`lookupd_timers_`. -/
def ConnectToLookupd (s : PoolState) (url : String) : PoolState × List Effect :=
  ({ s with lookupd_timers_ := s.lookupd_timers_ ++ [s.nextTimerId],
            nextTimerId := s.nextTimerId + 1 },
   [Effect.queryLookupd url])

/-- `Client::Close`: sets `closing_` and queues the teardown closure with
`QueueInLoop`; nothing else happens synchronously (the comment in the source
explains that `RunInLoop` could run the closure inline and corrupt the
iterators, hence `QueueInLoop`). -/
def Close (s : PoolState) : PoolState × List Effect :=
  ({ s with closing_ := true, queued_ := s.queued_ ++ [PoolTask.teardown] }, [])

/-- The teardown closure queued by `Close`, run on a later loop tick: calls
`Close()` on every connection of `conns_` and of `connecting_conns_`
(calling through a null `ConnPtr` entry is recorded as `closeNullConn`),
then cancels every lookupd timer and clears the timer list. -/
def runTeardown (s : PoolState) : PoolState × List Effect :=
  ({ s with lookupd_timers_ := [] },
   s.conns_.map Effect.closeConn ++
   s.connecting_conns_.map (fun p =>
     match p.2 with
     | some c => Effect.closeConn c
     | none => Effect.closeNullConn p.1) ++
   s.lookupd_timers_.map Effect.cancelTimer)

/-- `Client::MoveToConnectingList`: `connecting_conns_[addr]` default-inserts
a null `ConnPtr` when the key is absent; if the entry already holds a
non-null connection the function returns at once; otherwise the first
element of `conns_` equal to `conn` (shared-pointer equality) is moved into
the entry and erased from `conns_`. -/
def MoveToConnectingList (s : PoolState) (conn : Conn) : PoolState :=
  match mapFind s.connecting_conns_ conn.addr with
  | some (some _) => s
  | some none =>
    if conn ∈ s.conns_ then
      { s with connecting_conns_ := mapInsert s.connecting_conns_ conn.addr (some conn),
               conns_ := s.conns_.erase conn }
    else s
  | none =>
    if conn ∈ s.conns_ then
      { s with connecting_conns_ := mapInsert s.connecting_conns_ conn.addr (some conn),
               conns_ := s.conns_.erase conn }
    else
      { s with connecting_conns_ := mapInsert s.connecting_conns_ conn.addr none }

/-- `Client::OnConnection`, dispatching on the connection status `st`
observed at event time (`conn->status()`):
* Connected or Ready: `conns_.push_back(conn)` (unconditionally), erase the
  address from `connecting_conns_`; on Connected, consumers send SUB
  (status left untouched), producers set the status to Ready and invoke the
  ready-to-publish callback when one is registered; on Ready nothing more.
* Connecting: `MoveToConnectingList`.
* otherwise (Disconnected): erase the first occurrence of `conn` from
  `conns_`, erase the address from `connecting_conns_`; if both collections
  are now empty and a close callback is registered, invoke it; finally queue
  the deferred diagnostic closure. -/
def OnConnection (s : PoolState) (conn : Conn) (st : Status) : PoolState × List Effect :=
  if st = Status.kConnected ∨ st = Status.kReady then
    let s1 := { s with conns_ := s.conns_ ++ [conn],
                       connecting_conns_ := mapErase s.connecting_conns_ conn.addr }
    match st with
    | Status.kConnected =>
      if s.type_ = ClientType.kConsumer then
        (s1, [Effect.subscribe conn s.topic_ s.channel_])
      else
        (s1, Effect.setStatus conn Status.kReady ::
             (if s.ready_fn_set then [Effect.readyToPublish conn] else []))
    | _ => (s1, [])
  else if st = Status.kConnecting then
    (MoveToConnectingList s conn, [])
  else
    let s1 := { s with conns_ := s.conns_.erase conn,
                       connecting_conns_ := mapErase s.connecting_conns_ conn.addr }
    ({ s1 with queued_ := s1.queued_ ++ [PoolTask.diagnostic conn] },
     if s1.connecting_conns_.isEmpty && s1.conns_.isEmpty && s.close_fn_set then
       [Effect.closeComplete]
     else [])

/-- Abstract rapidjson value. -/
inductive JVal where
  | jnull
  | jint (n : Int)
  | jstr (s : String)
  | jarr (xs : List JVal)
  | jobj (fields : List (String × JVal))

/-- rapidjson `operator[](name)`: `none` when the value is not an object or
the member is missing (in which case the C++ call asserts/aborts). -/
def jmember (j : JVal) (k : String) : Option JVal :=
  match j with
  | JVal.jobj fields =>
    match fields.find? (fun p => p.1 = k) with
    | some p => some p.2
    | none => none
  | _ => none

/-- rapidjson `GetInt`: `none` when the value is not an integer (the C++
call asserts/aborts). -/
def jgetInt (j : JVal) : Option Int :=
  match j with
  | JVal.jint n => some n
  | _ => none

/-- rapidjson `GetString`: `none` when the value is not a string (the C++
call asserts/aborts). -/
def jgetStr (j : JVal) : Option String :=
  match j with
  | JVal.jstr s => some s
  | _ => none

/-- The producer loop of `Client::HandleLoopkupdHTTPResponse`: for each
producer record, read `broadcast_address` and `tcp_port` (unchecked
accesses: a missing or mistyped field is a rapidjson assertion, surfaced as
`Except.error`), build `addr`, and `ConnectToNSQD(addr)` unless
`IsKnownNSQDAddress(addr)`. -/
def connectProducers (s : PoolState) (effs : List Effect) (ps : List JVal) :
    Except String (PoolState × List Effect) :=
  match ps with
  | [] => Except.ok (s, effs)
  | p :: rest =>
    match (jmember p "broadcast_address").bind jgetStr with
    | none => Except.error "rapidjson assertion: producer[broadcast_address].GetString()"
    | some ba =>
      match (jmember p "tcp_port").bind jgetInt with
      | none => Except.error "rapidjson assertion: producer[tcp_port].GetInt()"
      | some port =>
        let addr := ba ++ ":" ++ toString port
        if IsKnownNSQDAddress s addr then
          connectProducers s effs rest
        else
          let r := ConnectToNSQD s addr
          connectProducers r.1 (effs ++ r.2) rest

/-- `Client::HandleLoopkupdHTTPResponse`: a non-200 HTTP code returns after
logging; otherwise the body is read with the unchecked accesses
`doc[status_code].GetInt()` and `doc[data][producers]` (rapidjson
assertions on a malformed body, surfaced as `Except.error`); a payload
`status_code` other than 200 returns after logging; on full success the
producers array is reconciled by `connectProducers`. -/
def HandleLoopkupdHTTPResponse (s : PoolState) (httpCode : Int) (doc : JVal) :
    Except String (PoolState × List Effect) :=
  if httpCode ≠ 200 then Except.ok (s, [])
  else
    match (jmember doc "status_code").bind jgetInt with
    | none => Except.error "rapidjson assertion: doc[status_code].GetInt()"
    | some sc =>
      if sc ≠ 200 then Except.ok (s, [])
      else
        match (jmember doc "data").bind (fun d => jmember d "producers") with
        | none => Except.error "rapidjson assertion: doc[data][producers]"
        | some pv =>
          match pv with
          | JVal.jarr ps => connectProducers s [] ps
          | _ => Except.error "rapidjson assertion: producers.Size() on a non-array"

/-- `Except.isOk` spelled out for the embedding. -/
def exceptIsOk (e : Except String (PoolState × List Effect)) : Bool :=
  match e with
  | Except.ok _ => true
  | Except.error _ => false

/-- A lookupd success body advertising the given `(broadcast_address,
tcp_port)` producer records. -/
def lookupdDoc (prods : List (String × Int)) : JVal :=
  JVal.jobj
    [("status_code", JVal.jint 200),
     ("data", JVal.jobj
        [("producers", JVal.jarr (prods.map (fun pr =>
            JVal.jobj [("broadcast_address", JVal.jstr pr.1),
                       ("tcp_port", JVal.jint pr.2)])))])]

/-- Mutual exclusion of the two membership collections: no address that is a
key of `connecting_conns_` is the address of an element of `conns_`. -/
def MutexFree (s : PoolState) : Prop :=
  ∀ p ∈ s.connecting_conns_, ∀ c ∈ s.conns_, c.addr ≠ p.1

instance (s : PoolState) : Decidable (MutexFree s) := by
  unfold MutexFree; infer_instance

/-- A `connecting_conns_` entry holding a live connection whose
`remote_addr()` is its key. -/
def entryLive (p : String × Option Conn) : Bool :=
  match p.2 with
  | some c => c.addr == p.1
  | none => false

/-- The connections held by `connecting_conns_` (null entries dropped). -/
def connectingConns (s : PoolState) : List Conn :=
  s.connecting_conns_.filterMap (fun p => p.2)

/-- Every connection the pool currently owns, in either collection. -/
def poolConns (s : PoolState) : List Conn :=
  s.conns_ ++ connectingConns s

/-- Drive each listed connection to Disconnected, in order, accumulating
the emitted effects. -/
def runDisconnects (s : PoolState) (order : List Conn) : PoolState × List Effect :=
  match order with
  | [] => (s, [])
  | c :: rest =>
    let r := OnConnection s c Status.kDisconnected
    let r2 := runDisconnects r.1 rest
    (r2.1, r.2 ++ r2.2)

/-- Well-formedness of the pool for the drain protocol: no duplicate
(shared-pointer) entry in `conns_`, unique `std::map` keys, every
`connecting_conns_` entry live with its address as key, and mutual
exclusion of the two collections. -/
def DrainWF (s : PoolState) : Prop :=
  s.conns_.Nodup ∧
  (s.connecting_conns_.map Prod.fst).Nodup ∧
  (∀ p ∈ s.connecting_conns_, entryLive p = true) ∧
  MutexFree s

instance (s : PoolState) : Decidable (DrainWF s) := by
  unfold DrainWF; infer_instance

/-! ### Concrete states used by counterexamples and witnesses -/

/-- A freshly constructed client of the given type with no connections. -/
def emptyPool (t : ClientType) : PoolState :=
  { type_ := t, topic_ := "topic", channel_ := "ch", closing_ := false,
    conns_ := [], connecting_conns_ := [], lookupd_timers_ := [], queued_ := [],
    close_fn_set := true, ready_fn_set := true, nextConnId := 0, nextTimerId := 0 }

/-- A consumer pool whose `conns_` already holds an active connection to
`10.0.0.1:4150`. -/
def poolA : PoolState :=
  { emptyPool ClientType.kConsumer with
    conns_ := [⟨0, "10.0.0.1:4150"⟩], nextConnId := 1 }

/-- The pool state right after `Close()` returns on a fresh consumer client. -/
def poolClosed : PoolState := (Close (emptyPool ClientType.kConsumer)).1

/-- A producer pool with one active connection, one connecting connection
and one registered lookupd timer. -/
def poolT : PoolState :=
  { emptyPool ClientType.kProducer with
    conns_ := [⟨5, "b:2"⟩],
    connecting_conns_ := [("c:3", some ⟨6, "c:3"⟩)],
    lookupd_timers_ := [7], nextConnId := 7, nextTimerId := 8 }

/-- A consumer pool whose `conns_` already holds the connection `⟨0,
10.0.0.2:4150⟩` (as after its Connected report). -/
def poolR : PoolState :=
  { emptyPool ClientType.kConsumer with
    conns_ := [⟨0, "10.0.0.2:4150"⟩], nextConnId := 1 }

/-- A consumer pool holding one active connection (`a:1`) and one
connecting connection (`b:2`). -/
def poolD : PoolState :=
  { emptyPool ClientType.kConsumer with
    conns_ := [⟨1, "a:1"⟩],
    connecting_conns_ := [("b:2", some ⟨2, "b:2"⟩)], nextConnId := 3 }

/-! ### Association-list lemmas -/

theorem mapFind_mapInsert_self (m : List (String × Option Conn)) (k : String)
    (v : Option Conn) : mapFind (mapInsert m k v) k = some v := by
  induction m with
  | nil => simp [mapInsert, mapFind]
  | cons p rest ih =>
    by_cases h : p.1 = k
    · simp [mapInsert, h, mapFind]
    · simp [mapInsert, h, mapFind, ih]

theorem mem_mapInsert (m : List (String × Option Conn)) (k : String)
    (v : Option Conn) (p : String × Option Conn) (hp : p ∈ mapInsert m k v) :
    p = (k, v) ∨ p ∈ m := by
  induction m with
  | nil =>
    simp only [mapInsert, List.mem_singleton] at hp
    exact Or.inl hp
  | cons q rest ih =>
    by_cases h : q.1 = k
    · simp only [mapInsert, h, if_pos] at hp
      rcases List.mem_cons.mp hp with h1 | h1
      · exact Or.inl h1
      · exact Or.inr (List.mem_cons_of_mem _ h1)
    · simp only [mapInsert, h, if_neg, not_false_iff] at hp
      rcases List.mem_cons.mp hp with h1 | h1
      · exact Or.inr (h1 ▸ List.mem_cons_self _ _)
      · rcases ih h1 with h2 | h2
        · exact Or.inl h2
        · exact Or.inr (List.mem_cons_of_mem _ h2)

theorem mem_mapErase (m : List (String × Option Conn)) (k : String)
    (p : String × Option Conn) (hp : p ∈ mapErase m k) : p ∈ m := by
  induction m with
  | nil => simp [mapErase] at hp
  | cons q rest ih =>
    by_cases h : q.1 = k
    · simp only [mapErase, h, if_pos] at hp
      exact List.mem_cons_of_mem _ hp
    · simp only [mapErase, h, if_neg, not_false_iff] at hp
      rcases List.mem_cons.mp hp with h1 | h1
      · exact h1 ▸ List.mem_cons_self _ _
      · exact List.mem_cons_of_mem _ (ih h1)

theorem mapFind_eq_none_iff (m : List (String × Option Conn)) (k : String) :
    mapFind m k = none ↔ k ∉ m.map Prod.fst := by
  induction m with
  | nil => simp [mapFind]
  | cons p rest ih =>
    by_cases h : p.1 = k
    · simp [mapFind, h]
    · simp [mapFind, h, ih, Ne.symm h]

theorem mapErase_of_find_none (m : List (String × Option Conn)) (k : String)
    (h : mapFind m k = none) : mapErase m k = m := by
  induction m with
  | nil => simp [mapErase]
  | cons p rest ih =>
    by_cases hp : p.1 = k
    · simp [mapFind, hp] at h
    · simp only [mapFind, hp, if_neg, not_false_iff] at h
      simp [mapErase, hp, ih h]

theorem mapInsert_of_find_none (m : List (String × Option Conn)) (k : String)
    (v : Option Conn) (h : mapFind m k = none) : mapInsert m k v = m ++ [(k, v)] := by
  induction m with
  | nil => simp [mapInsert]
  | cons p rest ih =>
    by_cases hp : p.1 = k
    · simp [mapFind, hp] at h
    · simp only [mapFind, hp, if_neg, not_false_iff] at h
      simp [mapInsert, hp, ih h]

theorem keys_mapErase_sublist (m : List (String × Option Conn)) (k : String) :
    ((mapErase m k).map Prod.fst).Sublist (m.map Prod.fst) := by
  induction m with
  | nil => simp [mapErase]
  | cons p rest ih =>
    by_cases hp : p.1 = k
    · simp only [mapErase, hp, if_pos, List.map_cons]
      exact (List.Sublist.refl _).cons _
    · simp only [mapErase, hp, if_neg, not_false_iff, List.map_cons]
      exact ih.cons₂ _

theorem mapFind_mapErase_self (m : List (String × Option Conn)) (k : String)
    (hk : (m.map Prod.fst).Nodup) : mapFind (mapErase m k) k = none := by
  induction m with
  | nil => simp [mapErase, mapFind]
  | cons p rest ih =>
    simp only [List.map_cons, List.nodup_cons] at hk
    by_cases hp : p.1 = k
    · simp only [mapErase, hp, if_pos]
      rw [mapFind_eq_none_iff]
      exact hp ▸ hk.1
    · simp [mapErase, hp, mapFind, ih hk.2]

theorem mapFind_length_erase (m : List (String × Option Conn)) (k : String)
    (v : Option Conn) (h : mapFind m k = some v) :
    (mapErase m k).length + 1 = m.length := by
  induction m with
  | nil => simp [mapFind] at h
  | cons p rest ih =>
    by_cases hp : p.1 = k
    · simp [mapErase, hp]
    · simp only [mapFind, hp, if_neg, not_false_iff] at h
      simp [mapErase, hp, ih h]

/-- If every producer record of the list is well-formed and yields an
already-known address, the reconciliation loop leaves the pool untouched
and adds no effect. -/
theorem connectProducers_all_known (s : PoolState) (effs : List Effect)
    (ps : List JVal)
    (h : ∀ p ∈ ps, ∃ ba port,
        jmember p "broadcast_address" = some (JVal.jstr ba) ∧
        jmember p "tcp_port" = some (JVal.jint port) ∧
        IsKnownNSQDAddress s (ba ++ ":" ++ toString port) = true) :
    connectProducers s effs ps = Except.ok (s, effs) := by
  induction ps with
  | nil => rfl
  | cons p rest ih =>
    obtain ⟨ba, port, h1, h2, h3⟩ := h p (List.mem_cons_self _ _)
    have hrest : ∀ q ∈ rest, ∃ ba port,
        jmember q "broadcast_address" = some (JVal.jstr ba) ∧
        jmember q "tcp_port" = some (JVal.jint port) ∧
        IsKnownNSQDAddress s (ba ++ ":" ++ toString port) = true :=
      fun q hq => h q (List.mem_cons_of_mem _ hq)
    simp [connectProducers, h1, h2, jgetStr, jgetInt, h3, ih hrest]

/-- C1 (counterexample): the address `10.0.0.1:4150` is already known to
`poolA` (it is in `conns_`), yet `ConnectToNSQD` is not a no-op there: it
creates a fresh connection, registers it under `connecting_conns_`, and
starts a TCP connect — membership and size change, refuting the claim for a
direct `ConnectTo` call. -/
theorem connectTo_known_address_not_noop :
    IsKnownNSQDAddress poolA "10.0.0.1:4150" = true ∧
    poolA.connecting_conns_ = [] ∧
    (ConnectToNSQD poolA "10.0.0.1:4150").1.connecting_conns_ =
      [("10.0.0.1:4150", some ⟨1, "10.0.0.1:4150"⟩)] ∧
    (ConnectToNSQD poolA "10.0.0.1:4150").2 =
      [Effect.connectStart ⟨1, "10.0.0.1:4150"⟩ "10.0.0.1:4150"] :=
  ⟨rfl, rfl, rfl, rfl⟩

/-- C1 (amended): only the discovery path deduplicates. A lookupd response
whose producer records all yield already-known addresses is a no-op: the
pool state is returned unchanged and no connect is initiated.  (A direct
`ConnectToNSQD` call performs no such check, per the counterexample.) -/
theorem discovery_connect_known_is_noop (s : PoolState)
    (prods : List (String × Int))
    (h : ∀ pr ∈ prods, IsKnownNSQDAddress s (pr.1 ++ ":" ++ toString pr.2) = true) :
    HandleLoopkupdHTTPResponse s 200 (lookupdDoc prods) = Except.ok (s, []) := by
  have hps : ∀ p ∈ prods.map (fun pr =>
      JVal.jobj [("broadcast_address", JVal.jstr pr.1),
                 ("tcp_port", JVal.jint pr.2)]), ∃ ba port,
      jmember p "broadcast_address" = some (JVal.jstr ba) ∧
      jmember p "tcp_port" = some (JVal.jint port) ∧
      IsKnownNSQDAddress s (ba ++ ":" ++ toString port) = true := by
    intro p hp
    obtain ⟨pr, hpr, rfl⟩ := List.mem_map.mp hp
    exact ⟨pr.1, pr.2, rfl, rfl, h pr hpr⟩
  simp [HandleLoopkupdHTTPResponse, lookupdDoc, jmember, jgetInt,
        connectProducers_all_known s [] _ hps]

/-- C1 (witness for the amended theorem): concrete instance on `poolA` with
its known address. -/
theorem discovery_connect_known_is_noop_witness :
    HandleLoopkupdHTTPResponse poolA 200 (lookupdDoc [("10.0.0.1", 4150)]) =
      Except.ok (poolA, []) :=
  discovery_connect_known_is_noop poolA [("10.0.0.1", 4150)] (by decide)

/-- C4 (counterexample): after `Close()` has returned (so `closing_` is
true), a lookupd response advertising an unknown address still calls
`ConnectToNSQD`: a new connection is created, the address enters
`connecting_conns_`, and a connect is started — `closing_` is never
consulted. -/
theorem discovery_after_close_still_connects :
    poolClosed.closing_ = true ∧
    HandleLoopkupdHTTPResponse poolClosed 200 (lookupdDoc [("a", 1)]) =
      Except.ok ({ poolClosed with
                    connecting_conns_ := [("a:1", some ⟨0, "a:1"⟩)],
                    nextConnId := 1 },
                 [Effect.connectStart ⟨0, "a:1"⟩ "a:1"]) :=
  ⟨rfl, rfl⟩

/-- C4 (amended): setting `closing_` does not by itself stop outbound
connects: no operation reads the flag, so a direct `ConnectToNSQD` or a
discovery response that arrives after `Close()` (its HTTP request was
already in flight, or its timer has not yet been cancelled) still creates a
connection for an unknown address and registers it in `connecting_conns_`.
Discovery polls stop only once the deferred teardown task has cancelled and
cleared the timers (`lookupd_timers_ = []`). -/
theorem closing_flag_does_not_block_connects (s : PoolState)
    (ba : String) (port : Int)
    (_hclos : s.closing_ = true)
    (hunk : IsKnownNSQDAddress s (ba ++ ":" ++ toString port) = false) :
    HandleLoopkupdHTTPResponse s 200 (lookupdDoc [(ba, port)]) =
      Except.ok ((ConnectToNSQD s (ba ++ ":" ++ toString port)).1,
                 [Effect.connectStart ⟨s.nextConnId, ba ++ ":" ++ toString port⟩
                    (ba ++ ":" ++ toString port)]) ∧
    mapFind (ConnectToNSQD s (ba ++ ":" ++ toString port)).1.connecting_conns_
        (ba ++ ":" ++ toString port) =
      some (some ⟨s.nextConnId, ba ++ ":" ++ toString port⟩) ∧
    (runTeardown s).1.lookupd_timers_ = [] := by
  refine ⟨?_, ?_, rfl⟩
  · simp [HandleLoopkupdHTTPResponse, lookupdDoc, jmember, jgetInt, jgetStr,
          connectProducers, hunk, ConnectToNSQD]
  · exact mapFind_mapInsert_self _ _ _

/-- C4 (witness for the amended theorem): concrete instance on the
post-`Close()` state. -/
theorem closing_flag_does_not_block_connects_witness :
    HandleLoopkupdHTTPResponse poolClosed 200 (lookupdDoc [("a", 1)]) =
      Except.ok ((ConnectToNSQD poolClosed "a:1").1,
                 [Effect.connectStart ⟨0, "a:1"⟩ "a:1"]) ∧
    mapFind (ConnectToNSQD poolClosed "a:1").1.connecting_conns_ "a:1" =
      some (some ⟨0, "a:1"⟩) ∧
    (runTeardown poolClosed).1.lookupd_timers_ = [] :=
  closing_flag_does_not_block_connects poolClosed "a" 1 rfl rfl

/-- C6 (code bug): the two documented failure paths behave as claimed — a
non-200 HTTP code and a payload `status_code` other than 200 both leave the
pool unchanged with no connect — but a malformed or missing-field body is
not treated as a poll failure: the handler performs the unchecked rapidjson
accesses `doc[status_code].GetInt()` / `doc[data][producers]`, which assert
(abort) instead of returning.  Shown at three malformed inputs: a body that
failed to parse (null document), a `status_code` of the wrong JSON type,
and a well-formed envelope missing the `data` member. -/
theorem lookupd_failure_and_malformed_paths :
    HandleLoopkupdHTTPResponse (emptyPool ClientType.kConsumer) 500 (lookupdDoc []) =
      Except.ok (emptyPool ClientType.kConsumer, []) ∧
    HandleLoopkupdHTTPResponse (emptyPool ClientType.kConsumer) 200
        (JVal.jobj [("status_code", JVal.jint 500)]) =
      Except.ok (emptyPool ClientType.kConsumer, []) ∧
    exceptIsOk (HandleLoopkupdHTTPResponse (emptyPool ClientType.kConsumer) 200
        JVal.jnull) = false ∧
    exceptIsOk (HandleLoopkupdHTTPResponse (emptyPool ClientType.kConsumer) 200
        (JVal.jobj [("status_code", JVal.jstr "200")])) = false ∧
    exceptIsOk (HandleLoopkupdHTTPResponse (emptyPool ClientType.kConsumer) 200
        (JVal.jobj [("status_code", JVal.jint 200)])) = false :=
  ⟨rfl, rfl, rfl, rfl, rfl⟩

/-- C7: `Close()` performs no teardown synchronously.  When it returns,
`conns_`, `connecting_conns_` and `lookupd_timers_` are exactly as before,
no effect has been emitted, and only `closing_` has been set; the teardown
closure has merely been queued with `QueueInLoop`.  When that closure later
runs, it requests close on every connection of both collections, cancels
every lookupd timer and clears the timer list. -/
theorem close_defers_teardown (s : PoolState) :
    (Close s).1.conns_ = s.conns_ ∧
    (Close s).1.connecting_conns_ = s.connecting_conns_ ∧
    (Close s).1.lookupd_timers_ = s.lookupd_timers_ ∧
    (Close s).1.closing_ = true ∧
    (Close s).2 = [] ∧
    (Close s).1.queued_ = s.queued_ ++ [PoolTask.teardown] ∧
    (∀ c ∈ s.conns_, Effect.closeConn c ∈ (runTeardown (Close s).1).2) ∧
    (∀ p ∈ s.connecting_conns_, ∀ c, p.2 = some c →
        Effect.closeConn c ∈ (runTeardown (Close s).1).2) ∧
    (∀ t ∈ s.lookupd_timers_, Effect.cancelTimer t ∈ (runTeardown (Close s).1).2) ∧
    (runTeardown (Close s).1).1.lookupd_timers_ = [] := by
  refine ⟨rfl, rfl, rfl, rfl, rfl, rfl, ?_, ?_, ?_, rfl⟩
  · intro c hc
    simp only [runTeardown, Close, List.mem_append, List.mem_map]
    exact Or.inl (Or.inl ⟨c, hc, rfl⟩)
  · intro p hp c hpc
    simp only [runTeardown, Close, List.mem_append, List.mem_map]
    exact Or.inl (Or.inr ⟨p, hp, by simp [hpc]⟩)
  · intro t ht
    simp only [runTeardown, Close, List.mem_append, List.mem_map]
    exact Or.inr ⟨t, ht, rfl⟩

/-- C7 (witness): the frame property of `Close` instantiated on `poolT`. -/
theorem close_defers_teardown_witness :
    (Close poolT).1.conns_ = poolT.conns_ ∧
    (Close poolT).1.connecting_conns_ = poolT.connecting_conns_ ∧
    (Close poolT).1.lookupd_timers_ = poolT.lookupd_timers_ ∧
    (Close poolT).1.closing_ = true ∧
    (Close poolT).2 = [] ∧
    (Close poolT).1.queued_ = poolT.queued_ ++ [PoolTask.teardown] ∧
    (∀ c ∈ poolT.conns_, Effect.closeConn c ∈ (runTeardown (Close poolT).1).2) ∧
    (∀ p ∈ poolT.connecting_conns_, ∀ c, p.2 = some c →
        Effect.closeConn c ∈ (runTeardown (Close poolT).1).2) ∧
    (∀ t ∈ poolT.lookupd_timers_, Effect.cancelTimer t ∈ (runTeardown (Close poolT).1).2) ∧
    (runTeardown (Close poolT).1).1.lookupd_timers_ = [] :=
  close_defers_teardown poolT

/-- C9: calling `Close()` on a pool with zero connections never invokes the
close-completion callback: `Close` itself emits nothing, and the deferred
teardown task only cancels timers — it emits no `closeComplete` and, the
pool being empty, issues no per-connection close request either, so no
later Disconnected event (the only place `close_fn_` is invoked) can arise
from it. -/
theorem close_on_empty_pool_never_completes (s : PoolState)
    (h1 : s.conns_ = []) (h2 : s.connecting_conns_ = []) :
    (Close s).2 = [] ∧
    (runTeardown (Close s).1).2 = s.lookupd_timers_.map Effect.cancelTimer ∧
    Effect.closeComplete ∉ (runTeardown (Close s).1).2 ∧
    ∀ c : Conn, Effect.closeConn c ∉ (runTeardown (Close s).1).2 := by
  refine ⟨rfl, ?_, ?_, ?_⟩
  · simp [runTeardown, Close, h1, h2]
  · simp [runTeardown, Close, h1, h2]
  · intro c
    simp [runTeardown, Close, h1, h2]

/-- C9 (witness): concrete instance on an idle pool that still has a
lookupd timer registered. -/
theorem close_on_empty_pool_never_completes_witness :
    (Close { emptyPool ClientType.kConsumer with lookupd_timers_ := [3] }).2 = [] ∧
    (runTeardown (Close { emptyPool ClientType.kConsumer with
        lookupd_timers_ := [3] }).1).2 = [3].map Effect.cancelTimer ∧
    Effect.closeComplete ∉ (runTeardown (Close { emptyPool ClientType.kConsumer with
        lookupd_timers_ := [3] }).1).2 ∧
    ∀ c : Conn, Effect.closeConn c ∉ (runTeardown (Close { emptyPool ClientType.kConsumer with
        lookupd_timers_ := [3] }).1).2 :=
  close_on_empty_pool_never_completes _ rfl rfl

/-- C10: a Connecting report for a connection whose address is in neither
collection makes `MoveToConnectingList` default-insert a null `ConnPtr`
under that address (`connecting_conns_[addr]` with an absent key), and then
find nothing to move: the entry stays null, `conns_` is untouched, no
effect is emitted, and `IsKnownNSQDAddress` now returns true for the
address although no live connection for it is held anywhere. -/
theorem connecting_event_unknown_address (s : PoolState) (c : Conn)
    (h1 : mapFind s.connecting_conns_ c.addr = none)
    (h2 : ∀ x ∈ s.conns_, x.addr ≠ c.addr) :
    (OnConnection s c Status.kConnecting).1.connecting_conns_ =
      mapInsert s.connecting_conns_ c.addr none ∧
    mapFind (OnConnection s c Status.kConnecting).1.connecting_conns_ c.addr =
      some none ∧
    (OnConnection s c Status.kConnecting).1.conns_ = s.conns_ ∧
    (OnConnection s c Status.kConnecting).2 = [] ∧
    IsKnownNSQDAddress (OnConnection s c Status.kConnecting).1 c.addr = true := by
  have hcnot : c ∉ s.conns_ := fun hmem => h2 c hmem rfl
  have hstate : (OnConnection s c Status.kConnecting).1 =
      { s with connecting_conns_ := mapInsert s.connecting_conns_ c.addr none } := by
    simp [OnConnection, MoveToConnectingList, h1, hcnot]
  refine ⟨by rw [hstate], ?_, by rw [hstate], rfl, ?_⟩
  · rw [hstate]
    exact mapFind_mapInsert_self _ _ _
  · rw [hstate]
    simp [IsKnownNSQDAddress, mapFind_mapInsert_self]

/-- C10 (witness): concrete instance — a stray Connecting report on a fresh
pool leaves a null entry that makes the address "known". -/
theorem connecting_event_unknown_address_witness :
    (OnConnection (emptyPool ClientType.kConsumer) ⟨9, "d:4"⟩
        Status.kConnecting).1.connecting_conns_ =
      mapInsert [] "d:4" none ∧
    mapFind (OnConnection (emptyPool ClientType.kConsumer) ⟨9, "d:4"⟩
        Status.kConnecting).1.connecting_conns_ "d:4" = some none ∧
    (OnConnection (emptyPool ClientType.kConsumer) ⟨9, "d:4"⟩
        Status.kConnecting).1.conns_ = [] ∧
    (OnConnection (emptyPool ClientType.kConsumer) ⟨9, "d:4"⟩
        Status.kConnecting).2 = [] ∧
    IsKnownNSQDAddress (OnConnection (emptyPool ClientType.kConsumer) ⟨9, "d:4"⟩
        Status.kConnecting).1 "d:4" = true :=
  connecting_event_unknown_address (emptyPool ClientType.kConsumer) ⟨9, "d:4"⟩
    rfl (by decide)

/-- C5: a Connected report (the Connecting→Connected transition) for an
address held in `connecting_conns_` moves the connection into `conns_` and
removes the address from `connecting_conns_`; in Consumer mode the only
effect is a single SUB request for the pool's topic and channel (the status
is not modified by the handler); in Producer mode (with a ready-to-publish
callback registered) the effects are exactly setting the status to Ready
and one ready-to-publish invocation with that connection. -/
theorem connected_transition_dispatch (s : PoolState) (c : Conn)
    (hk : (s.connecting_conns_.map Prod.fst).Nodup)
    (_hin : (mapFind s.connecting_conns_ c.addr).isSome = true) :
    mapFind (OnConnection s c Status.kConnected).1.connecting_conns_ c.addr = none ∧
    (OnConnection s c Status.kConnected).1.conns_ = s.conns_ ++ [c] ∧
    (s.type_ = ClientType.kConsumer →
      (OnConnection s c Status.kConnected).2 =
        [Effect.subscribe c s.topic_ s.channel_]) ∧
    (s.type_ = ClientType.kProducer → s.ready_fn_set = true →
      (OnConnection s c Status.kConnected).2 =
        [Effect.setStatus c Status.kReady, Effect.readyToPublish c]) := by
  refine ⟨?_, ?_, ?_, ?_⟩
  · by_cases ht : s.type_ = ClientType.kConsumer
    · simp [OnConnection, ht, mapFind_mapErase_self _ _ hk]
    · simp [OnConnection, ht, mapFind_mapErase_self _ _ hk]
  · by_cases ht : s.type_ = ClientType.kConsumer
    · simp [OnConnection, ht]
    · simp [OnConnection, ht]
  · intro ht
    simp [OnConnection, ht]
  · intro ht hr
    have ht2 : s.type_ ≠ ClientType.kConsumer := by simp [ht]
    simp [OnConnection, ht2, hr]

/-- C5 (witness): concrete instances of both modes.  A consumer pool with
`e:5` connecting gets exactly one SUB; a producer pool with `f:6`
connecting gets Ready plus one ready-to-publish call. -/
theorem connected_transition_dispatch_witness :
    (mapFind (OnConnection { emptyPool ClientType.kConsumer with
        connecting_conns_ := [("e:5", some ⟨1, "e:5"⟩)] } ⟨1, "e:5"⟩
        Status.kConnected).1.connecting_conns_ "e:5" = none ∧
     (OnConnection { emptyPool ClientType.kConsumer with
        connecting_conns_ := [("e:5", some ⟨1, "e:5"⟩)] } ⟨1, "e:5"⟩
        Status.kConnected).1.conns_ = [] ++ [⟨1, "e:5"⟩] ∧
     (OnConnection { emptyPool ClientType.kConsumer with
        connecting_conns_ := [("e:5", some ⟨1, "e:5"⟩)] } ⟨1, "e:5"⟩
        Status.kConnected).2 = [Effect.subscribe ⟨1, "e:5"⟩ "topic" "ch"]) ∧
    (OnConnection { emptyPool ClientType.kProducer with
        connecting_conns_ := [("f:6", some ⟨2, "f:6"⟩)] } ⟨2, "f:6"⟩
        Status.kConnected).2 =
      [Effect.setStatus ⟨2, "f:6"⟩ Status.kReady,
       Effect.readyToPublish ⟨2, "f:6"⟩] := by
  have h1 := connected_transition_dispatch
    { emptyPool ClientType.kConsumer with
      connecting_conns_ := [("e:5", some ⟨1, "e:5"⟩)] } ⟨1, "e:5"⟩
    (by decide) (by decide)
  have h2 := connected_transition_dispatch
    { emptyPool ClientType.kProducer with
      connecting_conns_ := [("f:6", some ⟨2, "f:6"⟩)] } ⟨2, "f:6"⟩
    (by decide) (by decide)
  exact ⟨⟨h1.1, h1.2.1, h1.2.2.1 rfl⟩, h2.2.2.2 rfl rfl⟩

/-- C8 (counterexample): a Ready report in Consumer mode for a connection
already in `conns_` is not a no-op on `active`: `push_back` is
unconditional, so `conns_` gains a duplicate entry for the same connection
object. -/
theorem ready_event_duplicates_active_entry :
    poolR.conns_ = [⟨0, "10.0.0.2:4150"⟩] ∧
    (OnConnection poolR ⟨0, "10.0.0.2:4150"⟩ Status.kReady).1.conns_ =
      [⟨0, "10.0.0.2:4150"⟩, ⟨0, "10.0.0.2:4150"⟩] ∧
    (OnConnection poolR ⟨0, "10.0.0.2:4150"⟩ Status.kReady).2 = [] :=
  ⟨rfl, rfl, rfl⟩

/-- C8 (amended): a Ready report in Consumer mode for a connection already
in `conns_` (its address not in `connecting_conns_`) issues no request and
no callback and leaves `connecting_conns_` unchanged, but appends the
connection to `conns_` again — `active` gains a duplicate entry. -/
theorem ready_event_consumer_appends_duplicate (s : PoolState) (c : Conn)
    (_ht : s.type_ = ClientType.kConsumer)
    (_hmem : c ∈ s.conns_)
    (hfind : mapFind s.connecting_conns_ c.addr = none) :
    (OnConnection s c Status.kReady).1.conns_ = s.conns_ ++ [c] ∧
    (OnConnection s c Status.kReady).1.connecting_conns_ = s.connecting_conns_ ∧
    (OnConnection s c Status.kReady).2 = [] := by
  refine ⟨?_, ?_, rfl⟩
  · simp [OnConnection]
  · simp [OnConnection, mapErase_of_find_none _ _ hfind]

/-! ### Mutual exclusion of `connecting_conns_` and `conns_` -/

theorem mapFind_some_mem (m : List (String × Option Conn)) (k : String)
    (v : Option Conn) (h : mapFind m k = some v) : (k, v) ∈ m := by
  induction m with
  | nil => simp [mapFind] at h
  | cons p rest ih =>
    by_cases hp : p.1 = k
    · simp only [mapFind, hp, if_pos, Option.some.injEq] at h
      subst h
      exact hp ▸ List.mem_cons_self _ _
    · simp only [mapFind, hp, if_neg, not_false_iff] at h
      exact List.mem_cons_of_mem _ (ih h)

theorem mem_mapErase_key_ne (m : List (String × Option Conn)) (k : String)
    (hk : (m.map Prod.fst).Nodup) (p : String × Option Conn)
    (hp : p ∈ mapErase m k) : p ∈ m ∧ p.1 ≠ k := by
  induction m with
  | nil => simp [mapErase] at hp
  | cons q rest ih =>
    simp only [List.map_cons, List.nodup_cons] at hk
    by_cases hq : q.1 = k
    · simp only [mapErase, hq, if_pos] at hp
      refine ⟨List.mem_cons_of_mem _ hp, ?_⟩
      intro hpk
      exact hk.1 (hq ▸ hpk ▸ List.mem_map_of_mem Prod.fst hp)
    · simp only [mapErase, hq, if_neg, not_false_iff] at hp
      rcases List.mem_cons.mp hp with h1 | h1
      · exact ⟨h1 ▸ List.mem_cons_self _ _, h1 ▸ hq⟩
      · obtain ⟨h2, h3⟩ := ih hk.2 h1
        exact ⟨List.mem_cons_of_mem _ h2, h3⟩

theorem isKnown_false_conns (s : PoolState) (a : String)
    (h : IsKnownNSQDAddress s a = false) : ∀ c ∈ s.conns_, c.addr ≠ a := by
  intro c hc
  simp only [IsKnownNSQDAddress, Bool.or_eq_false_iff, List.any_eq_false,
    beq_iff_eq] at h
  exact h.2 c hc

/-- `ConnectToNSQD` on an address known to neither collection preserves
mutual exclusion. -/
theorem mutexFree_connectToNSQD (s : PoolState) (a : String)
    (hm : MutexFree s) (hunk : IsKnownNSQDAddress s a = false) :
    MutexFree (ConnectToNSQD s a).1 := by
  intro p hp c hc
  rcases mem_mapInsert _ _ _ _ hp with h1 | h1
  · subst h1
    exact isKnown_false_conns s a hunk c hc
  · exact hm p h1 c hc

/-- The Connected/Ready branch of `OnConnection` preserves mutual
exclusion (given the `std::map` key-uniqueness of `connecting_conns_`). -/
theorem mutexFree_onConnectedReady (s : PoolState) (c : Conn) (st : Status)
    (hm : MutexFree s) (hk : (s.connecting_conns_.map Prod.fst).Nodup)
    (hst : st = Status.kConnected ∨ st = Status.kReady) :
    MutexFree (OnConnection s c st).1 := by
  have hstate : (OnConnection s c st).1 =
      { s with conns_ := s.conns_ ++ [c],
               connecting_conns_ := mapErase s.connecting_conns_ c.addr } := by
    rcases hst with h | h <;> subst h
    · by_cases ht : s.type_ = ClientType.kConsumer <;> simp [OnConnection, ht]
    · simp [OnConnection]
  rw [hstate]
  intro p hp x hx
  obtain ⟨hpm, hpk⟩ := mem_mapErase_key_ne _ _ hk p hp
  rcases List.mem_append.mp hx with h1 | h1
  · exact hm p hpm x h1
  · rw [List.mem_singleton.mp h1]
    exact fun hxa => hpk hxa.symm

/-- The Disconnected branch of `OnConnection` preserves mutual exclusion
unconditionally: both collections only shrink. -/
theorem mutexFree_onDisconnected (s : PoolState) (c : Conn)
    (hm : MutexFree s) : MutexFree (OnConnection s c Status.kDisconnected).1 := by
  intro p hp x hx
  simp only [OnConnection] at hp hx
  exact hm p (mem_mapErase _ _ _ hp) x (List.mem_of_mem_erase hx)

/-- The Connecting branch of `OnConnection` preserves mutual exclusion
provided the reporting connection's address occurs in `conns_` only via the
connection itself, at most once.  (Without that proviso the property fails:
a Ready report can duplicate a connection in `conns_`, and a subsequent
Connecting report then moves only the first copy.) -/
theorem mutexFree_onConnecting (s : PoolState) (c : Conn)
    (hm : MutexFree s)
    (hone : ∀ x ∈ s.conns_, x.addr = c.addr → x = c)
    (hcount : s.conns_.count c ≤ 1) :
    MutexFree (OnConnection s c Status.kConnecting).1 := by
  have hred : (OnConnection s c Status.kConnecting).1 = MoveToConnectingList s c := by
    simp [OnConnection]
  rw [hred]
  unfold MoveToConnectingList
  cases hfind : mapFind s.connecting_conns_ c.addr with
  | none =>
    simp only
    by_cases hmem : c ∈ s.conns_
    · simp only [hmem, if_pos]
      intro p hp x hx
      rcases mem_mapInsert _ _ _ _ hp with h1 | h1
      · subst h1
        intro hxa
        have hxc : x = c := hone x (List.mem_of_mem_erase hx) hxa
        subst hxc
        have : s.conns_.count x - 1 = 0 := by omega
        have hnot : x ∉ s.conns_.erase x := by
          rw [← List.count_pos_iff, List.count_erase_self, this]
          omega
        exact hnot hx
      · exact hm p h1 x (List.mem_of_mem_erase hx)
    · simp only [hmem, if_neg, not_false_iff]
      intro p hp x hx
      rcases mem_mapInsert _ _ _ _ hp with h1 | h1
      · subst h1
        intro hxa
        exact hmem (hone x hx hxa ▸ hx)
      · exact hm p h1 x hx
  | some oc =>
    cases oc with
    | some d =>
      simp only
      exact hm
    | none =>
      have hcm : c ∉ s.conns_ := by
        intro hcmem
        exact hm (c.addr, none) (mapFind_some_mem _ _ _ hfind) c hcmem rfl
      simp only [hcm, if_neg, not_false_iff]
      exact hm

/-- The producer-reconciliation loop of the lookupd handler preserves
mutual exclusion: every `ConnectToNSQD` it performs is guarded by
`IsKnownNSQDAddress`. -/
theorem mutexFree_connectProducers (ps : List JVal) (s : PoolState)
    (effs : List Effect) (s' : PoolState) (effs' : List Effect)
    (hm : MutexFree s) (h : connectProducers s effs ps = Except.ok (s', effs')) :
    MutexFree s' := by
  induction ps generalizing s effs with
  | nil =>
    simp only [connectProducers, Except.ok.injEq] at h
    obtain ⟨h1, _⟩ := Prod.mk.inj h
    exact h1 ▸ hm
  | cons p rest ih =>
    cases hba : (jmember p "broadcast_address").bind jgetStr with
    | none =>
      simp only [connectProducers, hba] at h
      exact Except.noConfusion h
    | some ba =>
      cases hport : (jmember p "tcp_port").bind jgetInt with
      | none =>
        simp only [connectProducers, hba, hport] at h
        exact Except.noConfusion h
      | some port =>
        cases hknown : IsKnownNSQDAddress s (ba ++ ":" ++ toString port) with
        | true =>
          simp only [connectProducers, hba, hport, hknown, if_pos] at h
          exact ih s effs hm h
        | false =>
          simp only [connectProducers, hba, hport, hknown, Bool.false_eq_true,
            if_false] at h
          exact ih _ _ (mutexFree_connectToNSQD s _ hm hknown) h

/-- The whole lookupd response handler preserves mutual exclusion whenever
it returns (rather than hitting a rapidjson assertion). -/
theorem mutexFree_handleLookupd (s : PoolState) (httpCode : Int) (doc : JVal)
    (s' : PoolState) (effs : List Effect) (hm : MutexFree s)
    (h : HandleLoopkupdHTTPResponse s httpCode doc = Except.ok (s', effs)) :
    MutexFree s' := by
  unfold HandleLoopkupdHTTPResponse at h
  by_cases hcode : httpCode ≠ 200
  · rw [if_pos hcode] at h
    obtain ⟨h1, _⟩ := Prod.mk.inj (Except.ok.inj h)
    exact h1 ▸ hm
  · rw [if_neg hcode] at h
    cases hsc : (jmember doc "status_code").bind jgetInt with
    | none =>
      rw [hsc] at h
      exact Except.noConfusion h
    | some sc =>
      rw [hsc] at h
      dsimp only at h
      by_cases hsc2 : sc ≠ 200
      · rw [if_pos hsc2] at h
        obtain ⟨h1, _⟩ := Prod.mk.inj (Except.ok.inj h)
        exact h1 ▸ hm
      · rw [if_neg hsc2] at h
        cases hpv : (jmember doc "data").bind (fun d => jmember d "producers") with
        | none =>
          rw [hpv] at h
          exact Except.noConfusion h
        | some pv =>
          rw [hpv] at h
          cases pv with
          | jarr ps => exact mutexFree_connectProducers ps s [] s' effs hm h
          | jnull => exact Except.noConfusion h
          | jint n => exact Except.noConfusion h
          | jstr str => exact Except.noConfusion h
          | jobj fields => exact Except.noConfusion h

/-- C2 (counterexample): from the mutually-exclusive state `poolA` (address
`10.0.0.1:4150` active only), a single direct `ConnectToNSQD` call with
that address — one of the operations the claim quantifies over — leaves the
address in `connecting_conns_` and in `conns_` simultaneously. -/
theorem mutual_exclusion_violated_by_connectTo :
    MutexFree poolA ∧ ¬ MutexFree (ConnectToNSQD poolA "10.0.0.1:4150").1 := by
  constructor
  · decide
  · decide

/-- C2 (amended): mutual exclusion is preserved by every operation except
an unguarded `ConnectTo`: by `ConnectToNSQD` on an address that is not yet
known, by the Connected/Ready dispatch (given `std::map` key uniqueness),
unconditionally by the Disconnected dispatch, by the Connecting dispatch
provided the reporting connection's address occurs in `conns_` at most once
and only via that connection, by the lookupd response handler (whose
connects are all guarded), and by `Close` and the teardown task.  A direct
`ConnectTo` with an already-known address violates it (see the
counterexample). -/
theorem mutual_exclusion_preservation (s : PoolState) (hm : MutexFree s) :
    (∀ a, IsKnownNSQDAddress s a = false → MutexFree (ConnectToNSQD s a).1) ∧
    (∀ c, (s.connecting_conns_.map Prod.fst).Nodup →
        MutexFree (OnConnection s c Status.kConnected).1 ∧
        MutexFree (OnConnection s c Status.kReady).1) ∧
    (∀ c, MutexFree (OnConnection s c Status.kDisconnected).1) ∧
    (∀ c, (∀ x ∈ s.conns_, x.addr = c.addr → x = c) → s.conns_.count c ≤ 1 →
        MutexFree (OnConnection s c Status.kConnecting).1) ∧
    (∀ httpCode doc s' effs,
        HandleLoopkupdHTTPResponse s httpCode doc = Except.ok (s', effs) →
        MutexFree s') ∧
    MutexFree (Close s).1 ∧
    MutexFree (runTeardown s).1 := by
  refine ⟨fun a ha => mutexFree_connectToNSQD s a hm ha,
          fun c hk => ⟨mutexFree_onConnectedReady s c _ hm hk (Or.inl rfl),
                       mutexFree_onConnectedReady s c _ hm hk (Or.inr rfl)⟩,
          fun c => mutexFree_onDisconnected s c hm,
          fun c h1 h2 => mutexFree_onConnecting s c hm h1 h2,
          fun httpCode doc s' effs h =>
            mutexFree_handleLookupd s httpCode doc s' effs hm h,
          hm, hm⟩

/-- C2 (witness for the amended theorem): the preserved conjuncts
instantiated on `poolA` and its active connection. -/
theorem mutual_exclusion_preservation_witness :
    MutexFree (ConnectToNSQD poolA "x:9").1 ∧
    MutexFree (OnConnection poolA ⟨0, "10.0.0.1:4150"⟩ Status.kConnected).1 ∧
    MutexFree (OnConnection poolA ⟨0, "10.0.0.1:4150"⟩ Status.kDisconnected).1 ∧
    MutexFree (OnConnection poolA ⟨0, "10.0.0.1:4150"⟩ Status.kConnecting).1 ∧
    MutexFree (Close poolA).1 := by
  have h := mutual_exclusion_preservation poolA (by decide)
  exact ⟨h.1 "x:9" (by decide),
         (h.2.1 ⟨0, "10.0.0.1:4150"⟩ (by decide)).1,
         h.2.2.1 ⟨0, "10.0.0.1:4150"⟩,
         h.2.2.2.1 ⟨0, "10.0.0.1:4150"⟩ (by decide) (by decide),
         h.2.2.2.2.2.1⟩

/-- C8 (witness for the amended theorem): concrete instance on `poolR`. -/
theorem ready_event_consumer_appends_duplicate_witness :
    (OnConnection poolR ⟨0, "10.0.0.2:4150"⟩ Status.kReady).1.conns_ =
      poolR.conns_ ++ [⟨0, "10.0.0.2:4150"⟩] ∧
    (OnConnection poolR ⟨0, "10.0.0.2:4150"⟩ Status.kReady).1.connecting_conns_ =
      poolR.connecting_conns_ ∧
    (OnConnection poolR ⟨0, "10.0.0.2:4150"⟩ Status.kReady).2 = [] :=
  ready_event_consumer_appends_duplicate poolR ⟨0, "10.0.0.2:4150"⟩
    rfl (by decide) rfl

/-! ### The close/drain protocol -/

theorem entryLive_some (p : String × Option Conn) (h : entryLive p = true) :
    ∃ c, p.2 = some c ∧ c.addr = p.1 := by
  cases hp : p.2 with
  | none => simp [entryLive, hp] at h
  | some c =>
    simp only [entryLive, hp, beq_iff_eq] at h
    exact ⟨c, rfl, h⟩

theorem filterMap_values_eq_nil (m : List (String × Option Conn))
    (hlive : ∀ p ∈ m, entryLive p = true) :
    (m.filterMap (fun p => p.2) = []) ↔ m = [] := by
  cases m with
  | nil => simp
  | cons p rest =>
    obtain ⟨c, hc, _⟩ := entryLive_some p (hlive p (List.mem_cons_self _ _))
    simp [List.filterMap_cons, hc]

theorem mapFind_of_mem (m : List (String × Option Conn))
    (hk : (m.map Prod.fst).Nodup) (k : String) (v : Option Conn)
    (h : (k, v) ∈ m) : mapFind m k = some v := by
  induction m with
  | nil => simp at h
  | cons q rest ih =>
    simp only [List.map_cons, List.nodup_cons] at hk
    rcases List.mem_cons.mp h with h1 | h1
    · rw [← h1]
      simp [mapFind]
    · by_cases hq : q.1 = k
      · exact absurd (hq ▸ List.mem_map_of_mem Prod.fst h1) hk.1
      · simp only [mapFind, hq, if_neg, not_false_iff]
        exact ih hk.2 h1

theorem connecting_erase_filterMap (m : List (String × Option Conn)) (c : Conn)
    (hk : (m.map Prod.fst).Nodup)
    (hlive : ∀ p ∈ m, entryLive p = true)
    (hfind : mapFind m c.addr = some (some c)) :
    (mapErase m c.addr).filterMap (fun p => p.2) =
      (m.filterMap (fun p => p.2)).erase c := by
  induction m with
  | nil => simp [mapFind] at hfind
  | cons q rest ih =>
    simp only [List.map_cons, List.nodup_cons] at hk
    by_cases hq : q.1 = c.addr
    · simp only [mapFind, hq, if_pos, Option.some.injEq] at hfind
      simp only [mapErase, hq, if_pos]
      rw [List.filterMap_cons, hfind]
      simp [List.erase_cons_head]
    · simp only [mapFind, hq, if_neg, not_false_iff] at hfind
      obtain ⟨d, hd, hda⟩ := entryLive_some q (hlive q (List.mem_cons_self _ _))
      have hdc : d ≠ c := by
        intro hdc
        subst hdc
        exact hq hda.symm
      simp only [mapErase, hq, if_neg, not_false_iff]
      rw [List.filterMap_cons, List.filterMap_cons, hd]
      simp only
      rw [ih hk.2 (fun p hp => hlive p (List.mem_cons_of_mem _ hp)) hfind,
          List.erase_cons_tail]
      simp [hdc]

theorem find_none_of_active (s : PoolState) (hm : MutexFree s) (c : Conn)
    (hmem : c ∈ s.conns_) : mapFind s.connecting_conns_ c.addr = none := by
  rw [mapFind_eq_none_iff]
  intro hkey
  obtain ⟨p, hp, hpk⟩ := List.mem_map.mp hkey
  exact hm p hp c hmem hpk.symm

theorem poolConns_mem_split (s : PoolState) (hwf : DrainWF s) (c : Conn)
    (hc : c ∈ poolConns s) :
    c ∈ s.conns_ ∨
      (c ∉ s.conns_ ∧ mapFind s.connecting_conns_ c.addr = some (some c)) := by
  by_cases hmem : c ∈ s.conns_
  · exact Or.inl hmem
  · refine Or.inr ⟨hmem, ?_⟩
    rcases List.mem_append.mp hc with h1 | h1
    · exact absurd h1 hmem
    · obtain ⟨p, hp, hpc⟩ := List.mem_filterMap.mp h1
      obtain ⟨d, hd, hda⟩ := entryLive_some p (hwf.2.2.1 p hp)
      rw [hd] at hpc
      have hdc : d = c := Option.some.inj hpc
      have hpeq : p = (c.addr, some c) := by
        rw [Prod.ext_iff]
        exact ⟨by rw [← hda, hdc], by rw [hd, hdc]⟩
      exact mapFind_of_mem _ hwf.2.1 _ _ (hpeq ▸ hp)

/-- One Disconnected dispatch on a well-formed pool removes exactly the
reporting connection, preserves well-formedness and the callback
registration, and emits the close-completion callback exactly when the
removal empties both collections (with a callback registered). -/
theorem disconnect_step (s : PoolState) (c : Conn)
    (hwf : DrainWF s) (hc : c ∈ poolConns s) :
    DrainWF (OnConnection s c Status.kDisconnected).1 ∧
    poolConns (OnConnection s c Status.kDisconnected).1 = (poolConns s).erase c ∧
    (OnConnection s c Status.kDisconnected).1.close_fn_set = s.close_fn_set ∧
    (OnConnection s c Status.kDisconnected).2 =
      (if (poolConns s).erase c = [] ∧ s.close_fn_set = true
       then [Effect.closeComplete] else []) := by
  obtain ⟨hnd, hkeys, hlive, hm⟩ := hwf
  have hconns1 : (OnConnection s c Status.kDisconnected).1.conns_ =
      s.conns_.erase c := rfl
  have hconn2 : (OnConnection s c Status.kDisconnected).1.connecting_conns_ =
      mapErase s.connecting_conns_ c.addr := rfl
  have hfn1 : (OnConnection s c Status.kDisconnected).1.close_fn_set =
      s.close_fn_set := rfl
  have hwf1 : DrainWF (OnConnection s c Status.kDisconnected).1 := by
    refine ⟨?_, ?_, ?_, mutexFree_onDisconnected s c hm⟩
    · rw [hconns1]
      exact hnd.erase c
    · rw [hconn2]
      exact List.Nodup.sublist (keys_mapErase_sublist _ _) hkeys
    · rw [hconn2]
      intro p hp
      exact hlive p (mem_mapErase _ _ _ hp)
  have hpool : poolConns (OnConnection s c Status.kDisconnected).1 =
      (poolConns s).erase c := by
    rcases poolConns_mem_split s ⟨hnd, hkeys, hlive, hm⟩ c hc with hmem | ⟨hmem, hfind⟩
    · have hnone := find_none_of_active s hm c hmem
      unfold poolConns connectingConns
      rw [hconns1, hconn2, mapErase_of_find_none _ _ hnone]
      exact (List.erase_append_left _ hmem).symm
    · unfold poolConns connectingConns
      rw [hconns1, hconn2, List.erase_of_not_mem hmem,
          connecting_erase_filterMap _ c hkeys hlive hfind]
      exact (List.erase_append_right _ hmem).symm
  have hlive1 : ∀ p ∈ mapErase s.connecting_conns_ c.addr, entryLive p = true :=
    fun p hp => hlive p (mem_mapErase _ _ _ hp)
  have hequiv : (((mapErase s.connecting_conns_ c.addr).isEmpty &&
        (s.conns_.erase c).isEmpty && s.close_fn_set) = true) ↔
      ((poolConns s).erase c = [] ∧ s.close_fn_set = true) := by
    rw [← hpool]
    unfold poolConns connectingConns
    rw [hconns1, hconn2]
    simp only [Bool.and_eq_true, List.isEmpty_iff, List.append_eq_nil,
      filterMap_values_eq_nil _ hlive1]
    tauto
  refine ⟨hwf1, hpool, hfn1, ?_⟩
  by_cases hP : (poolConns s).erase c = [] ∧ s.close_fn_set = true
  · have hb := hequiv.mpr hP
    show (if ((mapErase s.connecting_conns_ c.addr).isEmpty &&
        (s.conns_.erase c).isEmpty && s.close_fn_set) = true
      then [Effect.closeComplete] else []) = _
    rw [if_pos hb, if_pos hP]
  · have hb : ¬ (((mapErase s.connecting_conns_ c.addr).isEmpty &&
        (s.conns_.erase c).isEmpty && s.close_fn_set) = true) :=
      fun hbt => hP (hequiv.mp hbt)
    show (if ((mapErase s.connecting_conns_ c.addr).isEmpty &&
        (s.conns_.erase c).isEmpty && s.close_fn_set) = true
      then [Effect.closeComplete] else []) = _
    rw [if_neg hb, if_neg hP]

/-- Driving every pool connection to Disconnected, in any order, fires the
close-completion callback exactly once, leaves the pool empty and
well-formed, and fires nothing during any proper prefix of the order. -/
theorem runDisconnects_spec (order : List Conn) (s : PoolState)
    (hwf : DrainWF s) (hfn : s.close_fn_set = true)
    (hperm : order.Perm (poolConns s)) (hne : order ≠ []) :
    (runDisconnects s order).2.count Effect.closeComplete = 1 ∧
    poolConns (runDisconnects s order).1 = [] ∧
    DrainWF (runDisconnects s order).1 ∧
    ∀ n < order.length,
      (runDisconnects s (order.take n)).2.count Effect.closeComplete = 0 := by
  induction order generalizing s with
  | nil => exact absurd rfl hne
  | cons c rest ih =>
    have hc : c ∈ poolConns s := hperm.subset (List.mem_cons_self _ _)
    obtain ⟨hwf1, hpool1, hfn1, heff⟩ := disconnect_step s c hwf hc
    have hrest : rest.Perm ((poolConns s).erase c) :=
      (List.cons_perm_iff_perm_erase.mp hperm).2
    have hrun : runDisconnects s (c :: rest) =
        ((runDisconnects (OnConnection s c Status.kDisconnected).1 rest).1,
         (OnConnection s c Status.kDisconnected).2 ++
           (runDisconnects (OnConnection s c Status.kDisconnected).1 rest).2) := rfl
    by_cases hrnil : rest = []
    · subst hrnil
      have herase : (poolConns s).erase c = [] := hrest.symm.eq_nil
      have heffc : (OnConnection s c Status.kDisconnected).2 =
          [Effect.closeComplete] := by
        rw [heff, if_pos ⟨herase, hfn⟩]
      refine ⟨?_, ?_, ?_, ?_⟩
      · rw [hrun]
        simp [runDisconnects, heffc]
      · rw [hrun]
        simpa [runDisconnects, hpool1] using herase
      · rw [hrun]
        simpa [runDisconnects] using hwf1
      · intro n hn
        have hn0 : n = 0 := Nat.lt_one_iff.mp hn
        subst hn0
        simp [runDisconnects]
    · have herase_ne : (poolConns s).erase c ≠ [] := by
        intro h0
        rw [h0] at hrest
        exact hrnil hrest.eq_nil
      have heffn : (OnConnection s c Status.kDisconnected).2 = [] := by
        rw [heff, if_neg]
        rintro ⟨h0, _⟩
        exact herase_ne h0
      have hperm1 : rest.Perm (poolConns (OnConnection s c Status.kDisconnected).1) := by
        rw [hpool1]
        exact hrest
      have hfnr : (OnConnection s c Status.kDisconnected).1.close_fn_set = true := by
        rw [hfn1, hfn]
      obtain ⟨ihc, ihpool, ihwf, ihtake⟩ :=
        ih (OnConnection s c Status.kDisconnected).1 hwf1 hfnr hperm1 hrnil
      refine ⟨?_, ?_, ?_, ?_⟩
      · rw [hrun]
        simp [List.count_append, heffn, ihc]
      · rw [hrun]
        exact ihpool
      · rw [hrun]
        exact ihwf
      · intro n hn
        cases n with
        | zero => simp [runDisconnects]
        | succ k =>
          have hk : k < rest.length := by
            simpa using Nat.succ_lt_succ_iff.mp hn
          rw [List.take_succ_cons]
          have hruns : runDisconnects s (c :: rest.take k) =
              ((runDisconnects (OnConnection s c Status.kDisconnected).1
                  (rest.take k)).1,
               (OnConnection s c Status.kDisconnected).2 ++
                 (runDisconnects (OnConnection s c Status.kDisconnected).1
                   (rest.take k)).2) := rfl
          rw [hruns]
          simp [List.count_append, heffn, ihtake k hk]

/-- C3: starting from a well-formed pool holding N ≥ 1 connections spread
over `conns_` and `connecting_conns_` (with a close callback registered),
driving each connection to Disconnected exactly once, in any order, makes
the run emit the close-completion callback exactly once; both collections
are empty afterwards; and no proper prefix of the run emits it — it fires
only on the removal that empties both collections. -/
theorem close_completion_fires_exactly_once (s : PoolState) (order : List Conn)
    (hwf : DrainWF s) (hfn : s.close_fn_set = true)
    (hperm : order.Perm (poolConns s)) (hne : order ≠ []) :
    (runDisconnects s order).2.count Effect.closeComplete = 1 ∧
    (runDisconnects s order).1.conns_ = [] ∧
    (runDisconnects s order).1.connecting_conns_ = [] ∧
    ∀ n < order.length,
      (runDisconnects s (order.take n)).2.count Effect.closeComplete = 0 := by
  obtain ⟨h1, h2, h3, h4⟩ := runDisconnects_spec order s hwf hfn hperm hne
  unfold poolConns connectingConns at h2
  obtain ⟨h5, h6⟩ := List.append_eq_nil.mp h2
  refine ⟨h1, h5, ?_, h4⟩
  exact (filterMap_values_eq_nil _ h3.2.2.1).mp h6

/-- C3 (witness): both connections of `poolD` disconnected,
connecting-side first: one completion, fired only at the end. -/
theorem close_completion_fires_exactly_once_witness :
    (runDisconnects poolD [⟨2, "b:2"⟩, ⟨1, "a:1"⟩]).2.count Effect.closeComplete = 1 ∧
    (runDisconnects poolD [⟨2, "b:2"⟩, ⟨1, "a:1"⟩]).1.conns_ = [] ∧
    (runDisconnects poolD [⟨2, "b:2"⟩, ⟨1, "a:1"⟩]).1.connecting_conns_ = [] ∧
    ∀ n < ([(⟨2, "b:2"⟩ : Conn), ⟨1, "a:1"⟩]).length,
      (runDisconnects poolD (([(⟨2, "b:2"⟩ : Conn), ⟨1, "a:1"⟩]).take n)).2.count
        Effect.closeComplete = 0 :=
  close_completion_fires_exactly_once poolD [⟨2, "b:2"⟩, ⟨1, "a:1"⟩]
    (by decide) rfl (by decide) (by decide)

end Evnsq
